import Mathlib

/-!
Verification of the two smoke-test scripts of the repository
(`src/app/test-large-stdin.py`, script 1, and `src/app/test-stdin.py`,
script 2).  Each script builds a fixed JSON request payload, issues one
blocking HTTP POST and prints a result depending on the HTTP outcome.

The JSON data model is embedded as a mutual inductive (`Json` / `Jarr` /
`Jobj`); payload construction is translated line by line from the source.
The HTTP interaction is abstracted by `PostResult` (the outcome of
`requests.post` together with the outcome of `response.json()`), and each
script's `test_stdin_implementation` becomes a function from that outcome
to the list of printed lines and the process exit code.
-/

mutual

inductive Json where
  | str : String → Json
  | arr : Jarr → Json
  | obj : Jobj → Json

inductive Jarr where
  | nil : Jarr
  | cons : Json → Jarr → Jarr

inductive Jobj where
  | nil : Jobj
  | cons : String → Json → Jobj → Jobj

end

/-- Number of elements of a JSON array (Python `len` on a list). -/
def Jarr.length : Jarr → Nat
  | .nil => 0
  | .cons _ r => 1 + r.length

/-- Element at index `i` of a JSON array (Python list indexing). -/
def Jarr.get? : Jarr → Nat → Option Json
  | .nil, _ => none
  | .cons v _, 0 => some v
  | .cons _ r, i + 1 => r.get? i

/-- Build a JSON array from a Lean list. -/
def Jarr.ofList : List Json → Jarr
  | [] => .nil
  | v :: r => .cons v (Jarr.ofList r)

/-- Key lookup in a JSON object (Python dict indexing; keys here are unique
by construction). -/
def Jobj.lookup : Jobj → String → Option Json
  | .nil, _ => none
  | .cons k v r, key => if key = k then some v else r.lookup key

/-- The keys of a JSON object, in insertion order. -/
def Jobj.keys : Jobj → List String
  | .nil => []
  | .cons k _ r => k :: r.keys

/-- Whether `pat` occurs as a contiguous run inside the character list. -/
def hasSub (pat : List Char) : List Char → Bool
  | [] => pat.isEmpty
  | c :: r => pat.isPrefixOf (c :: r) || hasSub pat r

/-- Python string slicing `s[:n]` by code points. -/
def takeChars (s : String) (n : Nat) : String := ⟨s.data.take n⟩

/-- Line 6 of both scripts: `large_content = 'x' * (60 * 1024)`.  The two
files build the identical module-level constant. -/
def large_content : String := ⟨List.replicate (60 * 1024) 'x'⟩

/-- A character that `json.dumps` emits unescaped inside a string literal:
printable ASCII other than the double quote and the backslash. -/
def okChar (c : Char) : Bool :=
  c != '"' && c != '\\' && decide (32 ≤ c.toNat) && decide (c.toNat ≤ 126)

/-- A string serialized verbatim (no escapes) by `json.dumps`. -/
def okString (s : String) : Bool := s.data.all okChar

mutual

/-- Well-formedness for the round-trip statement: every string in the value
consists of characters that need no JSON escaping. -/
def wfJ : Json → Bool
  | .str s => okString s
  | .arr a => wfA a
  | .obj o => wfO o

def wfA : Jarr → Bool
  | .nil => true
  | .cons v r => wfJ v && wfA r

def wfO : Jobj → Bool
  | .nil => true
  | .cons k v r => okString k && wfJ v && wfO r

end

mutual

/-- Modelled from the spec: the request body is the "JSON-encoded request
payload" produced by the HTTP client from the payload (`json.dumps` with
its default separators; the serializer itself is library code, not in
`src/`).  Strings are emitted verbatim between double quotes, arrays as
`[v, v, ...]`, objects as `\x7b"k": v, "k": v, ...\x7d`. -/
def encodeJ : Json → List Char
  | .str s => '"' :: (s.data ++ ['"'])
  | .arr a => '[' :: (encodeA a ++ [']'])
  | .obj o => '{' :: (encodeO o ++ ['}'])

/-- The elements of an array, separated by `", "`. -/
def encodeA : Jarr → List Char
  | .nil => []
  | .cons v r => encodeJ v ++ encodeARest r

/-- The elements after the first one, each preceded by `", "`. -/
def encodeARest : Jarr → List Char
  | .nil => []
  | .cons v r => ',' :: ' ' :: (encodeJ v ++ encodeARest r)

/-- The entries of an object, `"key": value` separated by `", "`. -/
def encodeO : Jobj → List Char
  | .nil => []
  | .cons k v r => '"' :: (k.data ++ '"' :: ':' :: ' ' :: (encodeJ v ++ encodeORest r))

/-- The entries after the first one, each preceded by `", "`. -/
def encodeORest : Jobj → List Char
  | .nil => []
  | .cons k v r =>
    ',' :: ' ' :: '"' :: (k.data ++ '"' :: ':' :: ' ' :: (encodeJ v ++ encodeORest r))

end

/-- Parse the characters of a string literal up to the closing quote
(escape sequences are outside the fragment the scripts emit). -/
def parseStrL : List Char → Option (List Char × List Char)
  | [] => none
  | c :: r =>
    if c = '"' then some ([], r)
    else
      match parseStrL r with
      | some (l, rest) => some (c :: l, rest)
      | none => none

mutual

/-- Modelled from the spec: the decoder side of the "JSON-encoded request
payload" round trip (`json.loads`, library code not in `src/`), as a
fuel-indexed recursive-descent parser over the character list. -/
def parseVal : Nat → List Char → Option (Json × List Char)
  | 0, _ => none
  | _ + 1, [] => none
  | f + 1, c :: cs =>
    if c = '"' then
      match parseStrL cs with
      | some (l, rest) => some (.str ⟨l⟩, rest)
      | none => none
    else if c = '[' then
      match parseA f cs with
      | some (a, rest) => some (.arr a, rest)
      | none => none
    else if c = '{' then
      match parseO f cs with
      | some (o, rest) => some (.obj o, rest)
      | none => none
    else none

/-- Parse array elements, positioned just after `'['`. -/
def parseA : Nat → List Char → Option (Jarr × List Char)
  | 0, _ => none
  | _ + 1, [] => none
  | f + 1, c :: cs =>
    if c = ']' then some (.nil, cs)
    else
      match parseVal f (c :: cs) with
      | some (v, cs1) =>
        match parseARest f cs1 with
        | some (a, rest) => some (.cons v a, rest)
        | none => none
      | none => none

/-- Parse the array elements after a parsed element: either `']'` closes
the array, or `", "` precedes the next element. -/
def parseARest : Nat → List Char → Option (Jarr × List Char)
  | 0, _ => none
  | _ + 1, ']' :: cs => some (.nil, cs)
  | f + 1, ',' :: ' ' :: cs =>
    match parseVal f cs with
    | some (v, cs1) =>
      match parseARest f cs1 with
      | some (a, rest) => some (.cons v a, rest)
      | none => none
    | none => none
  | _ + 1, _ => none

/-- Parse object entries, positioned just after the opening brace. -/
def parseO : Nat → List Char → Option (Jobj × List Char)
  | 0, _ => none
  | _ + 1, '}' :: cs => some (.nil, cs)
  | f + 1, '"' :: cs =>
    match parseStrL cs with
    | some (l, cs1) =>
      match cs1 with
      | ':' :: ' ' :: cs2 =>
        match parseVal f cs2 with
        | some (v, cs3) =>
          match parseORest f cs3 with
          | some (o, rest) => some (.cons ⟨l⟩ v o, rest)
          | none => none
        | none => none
      | _ => none
    | none => none
  | _ + 1, _ => none

/-- Parse the object entries after a parsed entry: either the closing brace,
or `", "` preceding the next `"key": value`. -/
def parseORest : Nat → List Char → Option (Jobj × List Char)
  | 0, _ => none
  | _ + 1, '}' :: cs => some (.nil, cs)
  | f + 1, ',' :: ' ' :: '"' :: cs =>
    match parseStrL cs with
    | some (l, cs1) =>
      match cs1 with
      | ':' :: ' ' :: cs2 =>
        match parseVal f cs2 with
        | some (v, cs3) =>
          match parseORest f cs3 with
          | some (o, rest) => some (.cons ⟨l⟩ v o, rest)
          | none => none
        | none => none
      | _ => none
    | none => none
  | _ + 1, _ => none

end

mutual

/-- Fuel sufficient to parse back `encodeJ v`. -/
def sizeJ : Json → Nat
  | .str _ => 1
  | .arr a => 1 + sizeA a
  | .obj o => 1 + sizeO o

def sizeA : Jarr → Nat
  | .nil => 1
  | .cons v r => 1 + sizeJ v + sizeA r

def sizeO : Jobj → Nat
  | .nil => 1
  | .cons _ v r => 1 + sizeJ v + sizeO r

end

/-- The serialized request body (a string), `encode v = json.dumps(v)`. -/
def encode (v : Json) : String := ⟨encodeJ v⟩

/-- Decoding a JSON text, `json.loads`: parse a single value and require
that it consumes the whole input. -/
def decode (s : String) : Option Json :=
  match parseVal (2 * s.data.length + 1) s.data with
  | some (v, []) => some v
  | _ => none

/-- Outcome of the single `requests.post` call, as observed by the script:
either the call raised an exception (modelled by its string
representation), or it returned a response with a status code, a raw body
text, and an outcome for `response.json()` (which either yields a JSON
value or raises, again modelled by the exception text). -/
inductive PostResult where
  | exn : String → PostResult
  | resp : Nat → String → Except String Json → PostResult

/-- Python dict subscription `j[k]` on a decoded JSON value: a `KeyError`
when the key is absent, a `TypeError` when the value is not an object. -/
def getKey (j : Json) (k : String) : Except String Json :=
  match j with
  | .obj o =>
    match o.lookup k with
    | some v => .ok v
    | none => .error ("KeyError: " ++ k)
  | _ => .error ("TypeError: value is not a dict, key " ++ k)

/-- Python list subscription `j[i]` on a decoded JSON value. -/
def getIdx (j : Json) (i : Nat) : Except String Json :=
  match j with
  | .arr a =>
    match a.get? i with
    | some v => .ok v
    | none => .error "IndexError: list index out of range"
  | _ => .error "TypeError: value is not a list"

/-- The extraction `result["choices"][0]["message"]["content"]` performed by
both scripts on the decoded response, expecting a string at the end (the
response shape the scripts and the spec assume gives a string there). -/
def extractContent (j : Json) : Except String String := do
  let c ← getKey j "choices"
  let e ← getIdx c 0
  let m ← getKey e "message"
  let t ← getKey m "content"
  match t with
  | .str s => pure s
  | _ => .error "TypeError: content is not a string"

namespace TestLargeStdin

/-- Line 17 of `test-large-stdin.py`: the f-string content of the single
user message. -/
def content : String :=
  "This is a large content test. Content length: " ++
    toString large_content.length ++ " bytes. First 100 chars: " ++
    takeChars large_content 100

/-- Lines 12-20 of `test-large-stdin.py`: the request payload. -/
def payloadFields : Jobj :=
  .cons "model" (.str "sonnet")
    (.cons "messages"
      (.arr (.cons
        (.obj (.cons "role" (.str "user")
          (.cons "content" (.str content) .nil)))
        .nil))
      .nil)

def payload : Json := .obj payloadFields

/-- Lines 9-10 of `test-large-stdin.py`: the prints before the `try` block. -/
def preamble : List String :=
  ["Testing stdin implementation with large prompt...",
   "Prompt size: " ++ toString large_content.length ++ " bytes"]

/-- Lines 22-33 of `test-large-stdin.py`: the body of the `try` block,
returning the lines it prints and the exception, if one escapes to the
`except` handler. -/
def tryBody (pr : PostResult) : List String × Option String :=
  match pr with
  | .exn m => ([], some m)
  | .resp status _text jr =>
    if status = 200 then
      match jr with
      | .error m => (["✅ Success! Large prompt handled correctly"], some m)
      | .ok result =>
        match extractContent result with
        | .error m => (["✅ Success! Large prompt handled correctly"], some m)
        | .ok c =>
          (["✅ Success! Large prompt handled correctly",
            "Response: " ++ takeChars c 200 ++ "..."], none)
    else
      (["❌ Error: " ++ toString status, _text], none)

/-- Lines 8-39 of `test-large-stdin.py`: the whole run of
`test_stdin_implementation` — preamble prints, the `try` block, the
`except` handler printing the exception — paired with the process exit
code (the script never calls `sys.exit`, so the process exits 0). -/
def test_stdin_implementation (pr : PostResult) : List String × Nat :=
  let r := tryBody pr
  (preamble ++ r.1 ++
    (match r.2 with
     | some m => ["❌ Error: " ++ m]
     | none => []), 0)

end TestLargeStdin

namespace TestStdin

/-- Line 54 of `test-stdin.py`: the description of every synthetic tool. -/
def toolDescription : String :=
  "This is a large tool description that simulates real MCP tool contexts. "
    ++ ⟨List.replicate 500 'x'⟩

/-- Lines 55-62 of `test-stdin.py`: the fixed `parameters` schema object. -/
def toolParameters : Json :=
  .obj (.cons "type" (.str "object")
    (.cons "properties"
      (.obj (.cons "param1"
          (.obj (.cons "type" (.str "string")
            (.cons "description" (.str "Parameter 1") .nil)))
        (.cons "param2"
          (.obj (.cons "type" (.str "number")
            (.cons "description" (.str "Parameter 2") .nil)))
          .nil)))
      (.cons "required" (.arr (.cons (.str "param1")
        (.cons (.str "param2") .nil)))
        .nil)))

/-- The name of the `i`-th synthetic tool. -/
def toolName (i : Nat) : String := "large_tool_" ++ toString i

/-- Lines 50-64 of `test-stdin.py`: the record appended for loop index `i`. -/
def toolDef (i : Nat) : Json :=
  .obj (.cons "type" (.str "function")
    (.cons "function"
      (.obj (.cons "name" (.str (toolName i))
        (.cons "description" (.str toolDescription)
          (.cons "parameters" toolParameters .nil))))
      .nil))

/-- Lines 46-64 of `test-stdin.py`: `large_tools`, built by appending
`toolDef i` for `i in range(50)`. -/
def large_tools : Jarr := Jarr.ofList ((List.range 50).map toolDef)

/-- Line 76 of `test-stdin.py`: the f-string content of the single user
message.  Note it embeds only the 100-character prefix, not the size. -/
def content : String :=
  "Process this large content (first 100 chars): " ++
    takeChars large_content 100

/-- Lines 71-80 of `test-stdin.py`: the request payload, with the `tools`
key holding `large_tools`. -/
def payloadFields : Jobj :=
  .cons "model" (.str "sonnet")
    (.cons "messages"
      (.arr (.cons
        (.obj (.cons "role" (.str "user")
          (.cons "content" (.str content) .nil)))
        .nil))
      (.cons "tools" (.arr large_tools) .nil))

def payload : Json := .obj payloadFields

/-- Lines 67-69 of `test-stdin.py`: the prints before the `try` block. -/
def preamble : List String :=
  ["Testing stdin implementation with large prompt...",
   "Prompt size: " ++ toString large_content.length ++ " bytes",
   "Tools count: " ++ toString large_tools.length]

/-- Lines 82-93 of `test-stdin.py`: the body of the `try` block. -/
def tryBody (pr : PostResult) : List String × Option String :=
  match pr with
  | .exn m => ([], some m)
  | .resp status _text jr =>
    if status = 200 then
      match jr with
      | .error m => (["✅ Success! Stdin implementation working"], some m)
      | .ok result =>
        match extractContent result with
        | .error m => (["✅ Success! Stdin implementation working"], some m)
        | .ok c =>
          (["✅ Success! Stdin implementation working",
            "Response length: " ++ toString c.length], none)
    else
      (["❌ Error: " ++ toString status, _text], none)

/-- Lines 66-99 of `test-stdin.py`: the whole run of
`test_stdin_implementation`, paired with the process exit code. -/
def test_stdin_implementation (pr : PostResult) : List String × Nat :=
  let r := tryBody pr
  (preamble ++ r.1 ++
    (match r.2 with
     | some m => ["❌ Error: " ++ m]
     | none => []), 0)

end TestStdin

/-- The inputs a process run could in principle depend on: command-line
arguments and environment variables.  Neither script reads either (their
only imported modules are `requests` and `json`). -/
structure RunEnv where
  argv : List String
  envVars : String → Option String

/-- Payload construction of script 1 as a function of the process inputs:
the source builds it from literals only, so the environment is unused. -/
def TestLargeStdin.buildPayload (_e : RunEnv) : Json := TestLargeStdin.payload

/-- Payload construction of script 2 as a function of the process inputs:
the source builds it from literals only, so the environment is unused. -/
def TestStdin.buildPayload (_e : RunEnv) : Json := TestStdin.payload

/-- Total key lookup on a JSON value: `some` only for objects holding the
key (used to state properties of the constructed payloads). -/
def jLookup (j : Json) (k : String) : Option Json :=
  match j with
  | .obj o => o.lookup k
  | _ => none

/-- The `name` string nested under the `function` key of a tool record. -/
def toolNameOf (j : Json) : Option String :=
  match jLookup j "function" with
  | some (.obj fo) =>
    match fo.lookup "name" with
    | some (.str s) => some s
    | _ => none
  | _ => none

/-- The mocked success response body of the spec's test vector:
`{"choices":[{"message":{"content":"hello"}}]}`. -/
def helloJson : Json :=
  .obj (.cons "choices"
    (.arr (.cons (.obj (.cons "message"
      (.obj (.cons "content" (.str "hello") .nil)) .nil)) .nil))
    .nil)

/-!  Helper lemmas. -/

theorem Jarr.get?_ofList (l : List Json) (i : Nat) :
    (Jarr.ofList l).get? i = l[i]? := by
  induction l generalizing i with
  | nil => cases i <;> rfl
  | cons v r ih => cases i with
    | zero => simp [Jarr.ofList, Jarr.get?]
    | succ j => simpa [Jarr.ofList, Jarr.get?] using ih j

theorem Jarr.length_ofList (l : List Json) :
    (Jarr.ofList l).length = l.length := by
  induction l with
  | nil => rfl
  | cons v r ih => simp [Jarr.ofList, Jarr.length, ih]; omega

theorem large_content_length : large_content.length = 61440 := by
  show (List.replicate (60 * 1024) 'x').length = 61440
  rw [List.length_replicate]

theorem takeChars_large_content_100 :
    takeChars large_content 100 = ⟨List.replicate 100 'x'⟩ := by
  show (⟨(List.replicate (60 * 1024) 'x').take 100⟩ : String) = _
  have h : min 100 (60 * 1024) = 100 := by norm_num
  rw [List.take_replicate, h]

theorem okString_no_quote {s : String} (h : okString s = true) :
    ∀ c ∈ s.data, c ≠ '"' := by
  intro c hc
  have h2 := List.all_eq_true.mp h c hc
  simp only [okChar, Bool.and_eq_true, bne_iff_ne, decide_eq_true_eq] at h2
  exact h2.1.1.1

theorem parseStrL_complete (l : List Char) (rest : List Char)
    (h : ∀ c ∈ l, c ≠ '"') :
    parseStrL (l ++ '"' :: rest) = some (l, rest) := by
  induction l with
  | nil => simp [parseStrL]
  | cons c r ih =>
    have hc : c ≠ '"' := h c (by simp)
    simp [parseStrL, hc, ih (fun d hd => h d (by simp [hd]))]

theorem sizeJ_pos (v : Json) : 1 ≤ sizeJ v := by
  cases v <;> simp [sizeJ]

theorem sizeA_pos (a : Jarr) : 1 ≤ sizeA a := by
  cases a with
  | nil => simp [sizeA]
  | cons v r => simp [sizeA]; omega

theorem sizeO_pos (o : Jobj) : 1 ≤ sizeO o := by
  cases o with
  | nil => simp [sizeO]
  | cons k v r => simp [sizeO]; omega

theorem encodeJ_head (v : Json) :
    ∃ c t, encodeJ v = c :: t ∧ c ≠ ']' ∧ c ≠ ',' ∧ c ≠ '}' := by
  cases v <;> exact ⟨_, _, rfl, by decide, by decide, by decide⟩

mutual

theorem rtJ : ∀ (v : Json) (fuel : Nat) (rest : List Char),
    wfJ v = true → sizeJ v ≤ fuel →
    parseVal fuel (encodeJ v ++ rest) = some (v, rest)
  | .str s, fuel, rest => fun hwf hsz => by
    have hok : okString s = true := by simpa [wfJ] using hwf
    obtain ⟨f, rfl⟩ : ∃ f, fuel = f + 1 := ⟨fuel - 1, by simp [sizeJ] at hsz; omega⟩
    have h1 : encodeJ (.str s) ++ rest = '"' :: (s.data ++ '"' :: rest) := by
      simp [encodeJ]
    rw [h1]
    simp only [parseVal]
    rw [parseStrL_complete s.data rest (okString_no_quote hok)]
    simp
  | .arr a, fuel, rest => fun hwf hsz => by
    have hwa : wfA a = true := by simpa [wfJ] using hwf
    obtain ⟨f, rfl⟩ : ∃ f, fuel = f + 1 := ⟨fuel - 1, by simp [sizeJ] at hsz; omega⟩
    have hsa : sizeA a ≤ f := by simp [sizeJ] at hsz; omega
    have h1 : encodeJ (.arr a) ++ rest = '[' :: (encodeA a ++ ']' :: rest) := by
      simp [encodeJ]
    rw [h1]
    simp only [parseVal]
    rw [rtA a f rest hwa hsa]
    simp
  | .obj o, fuel, rest => fun hwf hsz => by
    have hwo : wfO o = true := by simpa [wfJ] using hwf
    obtain ⟨f, rfl⟩ : ∃ f, fuel = f + 1 := ⟨fuel - 1, by simp [sizeJ] at hsz; omega⟩
    have hso : sizeO o ≤ f := by simp [sizeJ] at hsz; omega
    have h1 : encodeJ (.obj o) ++ rest = '{' :: (encodeO o ++ '}' :: rest) := by
      simp [encodeJ]
    rw [h1]
    simp only [parseVal]
    rw [rtO o f rest hwo hso]
    simp

theorem rtA : ∀ (a : Jarr) (fuel : Nat) (rest : List Char),
    wfA a = true → sizeA a ≤ fuel →
    parseA fuel (encodeA a ++ ']' :: rest) = some (a, rest)
  | .nil, fuel, rest => fun _ hsz => by
    obtain ⟨f, rfl⟩ : ∃ f, fuel = f + 1 := ⟨fuel - 1, by simp [sizeA] at hsz; omega⟩
    simp [encodeA, parseA]
  | .cons v r, fuel, rest => fun hwf hsz => by
    have hv : wfJ v = true := by
      simp [wfA, Bool.and_eq_true] at hwf; exact hwf.1
    have hr : wfA r = true := by
      simp [wfA, Bool.and_eq_true] at hwf; exact hwf.2
    obtain ⟨f, rfl⟩ : ∃ f, fuel = f + 1 := ⟨fuel - 1, by simp [sizeA] at hsz; omega⟩
    have hs1 : sizeJ v ≤ f := by
      have := sizeA_pos r; simp [sizeA] at hsz; omega
    have hs2 : sizeA r ≤ f := by
      have := sizeJ_pos v; simp [sizeA] at hsz; omega
    obtain ⟨c, t, he, hc1, hc2, hc3⟩ := encodeJ_head v
    have h1 : encodeA (.cons v r) ++ ']' :: rest
        = c :: (t ++ (encodeARest r ++ ']' :: rest)) := by
      simp [encodeA, he]
    rw [h1]
    simp only [parseA]
    rw [if_neg hc1]
    have h2 : c :: (t ++ (encodeARest r ++ ']' :: rest))
        = encodeJ v ++ (encodeARest r ++ ']' :: rest) := by simp [he]
    rw [h2]
    rw [rtJ v f (encodeARest r ++ ']' :: rest) hv hs1]
    simp [rtAR r f rest hr hs2]

theorem rtAR : ∀ (a : Jarr) (fuel : Nat) (rest : List Char),
    wfA a = true → sizeA a ≤ fuel →
    parseARest fuel (encodeARest a ++ ']' :: rest) = some (a, rest)
  | .nil, fuel, rest => fun _ hsz => by
    obtain ⟨f, rfl⟩ : ∃ f, fuel = f + 1 := ⟨fuel - 1, by simp [sizeA] at hsz; omega⟩
    simp [encodeARest, parseARest]
  | .cons v r, fuel, rest => fun hwf hsz => by
    have hv : wfJ v = true := by
      simp [wfA, Bool.and_eq_true] at hwf; exact hwf.1
    have hr : wfA r = true := by
      simp [wfA, Bool.and_eq_true] at hwf; exact hwf.2
    obtain ⟨f, rfl⟩ : ∃ f, fuel = f + 1 := ⟨fuel - 1, by simp [sizeA] at hsz; omega⟩
    have hs1 : sizeJ v ≤ f := by
      have := sizeA_pos r; simp [sizeA] at hsz; omega
    have hs2 : sizeA r ≤ f := by
      have := sizeJ_pos v; simp [sizeA] at hsz; omega
    have h1 : encodeARest (.cons v r) ++ ']' :: rest
        = ',' :: ' ' :: (encodeJ v ++ (encodeARest r ++ ']' :: rest)) := by
      simp [encodeARest]
    rw [h1]
    simp only [parseARest]
    rw [rtJ v f (encodeARest r ++ ']' :: rest) hv hs1]
    simp [rtAR r f rest hr hs2]

theorem rtO : ∀ (o : Jobj) (fuel : Nat) (rest : List Char),
    wfO o = true → sizeO o ≤ fuel →
    parseO fuel (encodeO o ++ '}' :: rest) = some (o, rest)
  | .nil, fuel, rest => fun _ hsz => by
    obtain ⟨f, rfl⟩ : ∃ f, fuel = f + 1 := ⟨fuel - 1, by simp [sizeO] at hsz; omega⟩
    simp [encodeO, parseO]
  | .cons k v r, fuel, rest => fun hwf hsz => by
    have hk : okString k = true := by
      simp [wfO, Bool.and_eq_true] at hwf; exact hwf.1.1
    have hv : wfJ v = true := by
      simp [wfO, Bool.and_eq_true] at hwf; exact hwf.1.2
    have hr : wfO r = true := by
      simp [wfO, Bool.and_eq_true] at hwf; exact hwf.2
    obtain ⟨f, rfl⟩ : ∃ f, fuel = f + 1 := ⟨fuel - 1, by simp [sizeO] at hsz; omega⟩
    have hs1 : sizeJ v ≤ f := by
      have := sizeO_pos r; simp [sizeO] at hsz; omega
    have hs2 : sizeO r ≤ f := by
      have := sizeJ_pos v; simp [sizeO] at hsz; omega
    have h1 : encodeO (.cons k v r) ++ '}' :: rest
        = '"' :: (k.data ++ '"' :: (':' :: ' ' ::
            (encodeJ v ++ (encodeORest r ++ '}' :: rest)))) := by
      simp [encodeO]
    rw [h1]
    simp only [parseO]
    rw [parseStrL_complete k.data _ (okString_no_quote hk)]
    simp [rtJ v f (encodeORest r ++ '}' :: rest) hv hs1,
      rtOR r f rest hr hs2]

theorem rtOR : ∀ (o : Jobj) (fuel : Nat) (rest : List Char),
    wfO o = true → sizeO o ≤ fuel →
    parseORest fuel (encodeORest o ++ '}' :: rest) = some (o, rest)
  | .nil, fuel, rest => fun _ hsz => by
    obtain ⟨f, rfl⟩ : ∃ f, fuel = f + 1 := ⟨fuel - 1, by simp [sizeO] at hsz; omega⟩
    simp [encodeORest, parseORest]
  | .cons k v r, fuel, rest => fun hwf hsz => by
    have hk : okString k = true := by
      simp [wfO, Bool.and_eq_true] at hwf; exact hwf.1.1
    have hv : wfJ v = true := by
      simp [wfO, Bool.and_eq_true] at hwf; exact hwf.1.2
    have hr : wfO r = true := by
      simp [wfO, Bool.and_eq_true] at hwf; exact hwf.2
    obtain ⟨f, rfl⟩ : ∃ f, fuel = f + 1 := ⟨fuel - 1, by simp [sizeO] at hsz; omega⟩
    have hs1 : sizeJ v ≤ f := by
      have := sizeO_pos r; simp [sizeO] at hsz; omega
    have hs2 : sizeO r ≤ f := by
      have := sizeJ_pos v; simp [sizeO] at hsz; omega
    have h1 : encodeORest (.cons k v r) ++ '}' :: rest
        = ',' :: ' ' :: '"' :: (k.data ++ '"' :: (':' :: ' ' ::
            (encodeJ v ++ (encodeORest r ++ '}' :: rest)))) := by
      simp [encodeORest]
    rw [h1]
    simp only [parseORest]
    rw [parseStrL_complete k.data _ (okString_no_quote hk)]
    simp [rtJ v f (encodeORest r ++ '}' :: rest) hv hs1,
      rtOR r f rest hr hs2]

end

mutual

theorem sizeJ_le : ∀ v : Json, sizeJ v + 1 ≤ 2 * (encodeJ v).length
  | .str s => by simp [sizeJ, encodeJ]
  | .arr a => by
    have := sizeA_le a; simp [sizeJ, encodeJ]; omega
  | .obj o => by
    have := sizeO_le o; simp [sizeJ, encodeJ]; omega

theorem sizeA_le : ∀ a : Jarr, sizeA a ≤ 2 * (encodeA a).length + 2
  | .nil => by simp [sizeA, encodeA]
  | .cons v r => by
    have h1 := sizeJ_le v
    have h2 := sizeAR_le r
    simp [sizeA, encodeA]; omega

theorem sizeAR_le : ∀ a : Jarr, sizeA a ≤ 2 * (encodeARest a).length + 1
  | .nil => by simp [sizeA, encodeARest]
  | .cons v r => by
    have h1 := sizeJ_le v
    have h2 := sizeAR_le r
    simp [sizeA, encodeARest]; omega

theorem sizeO_le : ∀ o : Jobj, sizeO o ≤ 2 * (encodeO o).length + 2
  | .nil => by simp [sizeO, encodeO]
  | .cons k v r => by
    have h1 := sizeJ_le v
    have h2 := sizeOR_le r
    simp [sizeO, encodeO]; omega

theorem sizeOR_le : ∀ o : Jobj, sizeO o ≤ 2 * (encodeORest o).length + 1
  | .nil => by simp [sizeO, encodeORest]
  | .cons k v r => by
    have h1 := sizeJ_le v
    have h2 := sizeOR_le r
    simp [sizeO, encodeORest]; omega

end

/-- JSON round trip: decoding the encoding of any escape-free value gives
the value back. -/
theorem decode_encode {v : Json} (h : wfJ v = true) :
    decode (encode v) = some v := by
  have hs : sizeJ v ≤ 2 * (encodeJ v).length + 1 := by
    have := sizeJ_le v; omega
  have hp := rtJ v (2 * (encodeJ v).length + 1) [] h hs
  rw [List.append_nil] at hp
  show (match parseVal (2 * (encodeJ v).length + 1) (encodeJ v) with
        | some (w, []) => some w
        | _ => none) = some v
  rw [hp]

theorem data_append (a b : String) : (a ++ b).data = a.data ++ b.data := rfl

theorem okString_append (a b : String) :
    okString (a ++ b) = (okString a && okString b) := by
  show ((a ++ b).data).all okChar = _
  rw [data_append, List.all_append]
  rfl

theorem okString_replicate (n : Nat) :
    okString ⟨List.replicate n 'x'⟩ = true := by
  show (List.replicate n 'x').all okChar = true
  rw [List.all_eq_true]
  intro c hc
  have h := List.eq_of_mem_replicate hc
  subst h
  decide

theorem content1_eq : TestLargeStdin.content
    = "This is a large content test. Content length: 61440 bytes. First 100 chars: "
      ++ (⟨List.replicate 100 'x'⟩ : String) := by
  unfold TestLargeStdin.content
  rw [large_content_length, takeChars_large_content_100]
  rfl

theorem content2_eq : TestStdin.content
    = "Process this large content (first 100 chars): "
      ++ (⟨List.replicate 100 'x'⟩ : String) := by
  unfold TestStdin.content
  rw [takeChars_large_content_100]

set_option maxRecDepth 20000 in
theorem okString_content1 : okString TestLargeStdin.content = true := by
  rw [content1_eq]
  rw [okString_append, okString_replicate]
  decide

set_option maxRecDepth 20000 in
theorem okString_content2 : okString TestStdin.content = true := by
  rw [content2_eq]
  rw [okString_append, okString_replicate]
  decide

set_option maxRecDepth 20000 in
theorem okString_toolDescription :
    okString TestStdin.toolDescription = true := by
  unfold TestStdin.toolDescription
  rw [okString_append, okString_replicate]
  decide

set_option maxRecDepth 4000 in
theorem wf_payload1 : wfJ TestLargeStdin.payload = true := by
  simp only [TestLargeStdin.payload, TestLargeStdin.payloadFields,
    wfJ, wfA, wfO, okString_content1]
  decide

set_option maxRecDepth 4000 in
theorem toolNames_ok :
    (List.range 50).all (fun i => okString (TestStdin.toolName i)) = true := by
  decide

set_option maxRecDepth 4000 in
theorem wf_toolDef {i : Nat} (hn : okString (TestStdin.toolName i) = true) :
    wfJ (TestStdin.toolDef i) = true := by
  simp only [TestStdin.toolDef, TestStdin.toolParameters, wfJ, wfO, wfA,
    hn, okString_toolDescription]
  decide

theorem wfA_ofList (l : List Json) : wfA (Jarr.ofList l) = l.all wfJ := by
  induction l with
  | nil => rfl
  | cons v r ih => simp [Jarr.ofList, wfA, ih]

theorem wfA_large_tools : wfA TestStdin.large_tools = true := by
  rw [TestStdin.large_tools, wfA_ofList, List.all_eq_true]
  intro v hv
  rw [List.mem_map] at hv
  obtain ⟨i, hi, rfl⟩ := hv
  exact wf_toolDef (List.all_eq_true.mp toolNames_ok i hi)

set_option maxRecDepth 4000 in
theorem wf_payload2 : wfJ TestStdin.payload = true := by
  simp only [TestStdin.payload, TestStdin.payloadFields,
    wfJ, wfA, wfO, okString_content2, wfA_large_tools]
  decide

/-!  Claim theorems. -/

/-- Claim C1: for every run of either script, the large filler string built
at module level has length exactly 61,440 bytes and consists of a single
repeated character. -/
theorem claim_C1 : large_content.length = 61440 ∧
    ∃ c, large_content.data = List.replicate 61440 c :=
  ⟨large_content_length, 'x', rfl⟩

/-- Claim C2 as stated is false for script 2: its message content string
does not report the filler size.  This counterexample shows the decimal
representation of the filler length ("61440") does not occur in the
content string built by `test-stdin.py`. -/
theorem claim_C2_counterexample :
    hasSub (toString large_content.length).data TestStdin.content.data
      = false := by
  rw [large_content_length, content2_eq]
  decide

/-- Claim C2 (amended): script 1's message content string reports the
filler string's size and a 100-character prefix of the filler; script 2's
message content string reports a 100-character prefix of the filler but
not its size. -/
theorem claim_C2 :
    (hasSub (toString large_content.length).data TestLargeStdin.content.data
        = true
      ∧ hasSub (takeChars large_content 100).data TestLargeStdin.content.data
        = true)
    ∧ (hasSub (takeChars large_content 100).data TestStdin.content.data
        = true
      ∧ hasSub (toString large_content.length).data TestStdin.content.data
        = false)
    ∧ (takeChars large_content 100).length = 100 := by
  rw [large_content_length, takeChars_large_content_100, content1_eq,
    content2_eq]
  refine ⟨⟨?_, ?_⟩, ⟨?_, ?_⟩, ?_⟩ <;> decide

/-- Claim C3: for every outcome of the HTTP request (exception, or any
response whose parsing or key extraction may in turn raise), both scripts
catch the exception at the top level of the test function, print its
string representation after a failure marker, do not re-raise, and the
process exits 0. -/
theorem claim_C3 (pr : PostResult) (m : String) :
    (TestLargeStdin.test_stdin_implementation pr).2 = 0
    ∧ (TestStdin.test_stdin_implementation pr).2 = 0
    ∧ ((TestLargeStdin.tryBody pr).2 = some m →
        (TestLargeStdin.test_stdin_implementation pr).1
          = TestLargeStdin.preamble ++ (TestLargeStdin.tryBody pr).1
            ++ ["❌ Error: " ++ m])
    ∧ ((TestStdin.tryBody pr).2 = some m →
        (TestStdin.test_stdin_implementation pr).1
          = TestStdin.preamble ++ (TestStdin.tryBody pr).1
            ++ ["❌ Error: " ++ m]) := by
  refine ⟨rfl, rfl, fun h => ?_, fun h => ?_⟩
  · simp [TestLargeStdin.test_stdin_implementation, h]
  · simp [TestStdin.test_stdin_implementation, h]

theorem claim_C3_witness :
    (TestLargeStdin.tryBody (.exn "connection refused")).2
        = some "connection refused"
    ∧ (TestLargeStdin.test_stdin_implementation (.exn "connection refused")).1
        = TestLargeStdin.preamble
          ++ (TestLargeStdin.tryBody (.exn "connection refused")).1
          ++ ["❌ Error: connection refused"]
    ∧ (TestStdin.test_stdin_implementation (.exn "connection refused")).2
        = 0 :=
  ⟨rfl,
   (claim_C3 (.exn "connection refused") "connection refused").2.2.1 rfl,
   (claim_C3 (.exn "connection refused") "connection refused").2.1⟩

/-- Claim C4: script 2's tool list has exactly 50 elements; the element at
each index `i < 50` is `toolDef i`, whose `type` is the string
`"function"` and whose nested function name is `"large_tool_" ++ i`; the
50 names are pairwise distinct. -/
theorem claim_C4 :
    TestStdin.large_tools.length = 50
    ∧ (∀ i, i < 50 →
        TestStdin.large_tools.get? i = some (TestStdin.toolDef i)
        ∧ jLookup (TestStdin.toolDef i) "type" = some (.str "function")
        ∧ toolNameOf (TestStdin.toolDef i)
            = some ("large_tool_" ++ toString i))
    ∧ ((List.range 50).map TestStdin.toolName).Nodup := by
  refine ⟨?_, fun i hi => ⟨?_, rfl, rfl⟩, ?_⟩
  · rw [TestStdin.large_tools, Jarr.length_ofList]
    simp
  · rw [TestStdin.large_tools, Jarr.get?_ofList]
    simp [List.getElem?_map, List.getElem?_range, hi]
  · decide

theorem claim_C4_witness :
    (7 : Nat) < 50
    ∧ (TestStdin.large_tools.get? 7 = some (TestStdin.toolDef 7)
       ∧ jLookup (TestStdin.toolDef 7) "type" = some (.str "function")
       ∧ toolNameOf (TestStdin.toolDef 7)
           = some ("large_tool_" ++ toString 7)) :=
  ⟨by decide, claim_C4.2.1 7 (by decide)⟩

/-- Claim C5: for every 200 response whose body parses to JSON of the
expected shape, each script extracts `choices[0].message.content`, prints
a success marker and then a truncated view of the content (first 200
characters in script 1, just the length in script 2), and no exception
escapes the try block. -/
theorem claim_C5 (text : String) (j : Json) (c : String)
    (h : extractContent j = .ok c) :
    TestLargeStdin.tryBody (.resp 200 text (.ok j))
      = (["✅ Success! Large prompt handled correctly",
          "Response: " ++ takeChars c 200 ++ "..."], none)
    ∧ TestStdin.tryBody (.resp 200 text (.ok j))
      = (["✅ Success! Stdin implementation working",
          "Response length: " ++ toString c.length], none) := by
  constructor <;> simp [TestLargeStdin.tryBody, TestStdin.tryBody, h]

theorem claim_C5_witness :
    extractContent helloJson = .ok "hello"
    ∧ TestLargeStdin.tryBody (.resp 200 "" (.ok helloJson))
      = (["✅ Success! Large prompt handled correctly",
          "Response: hello..."], none)
    ∧ TestStdin.tryBody (.resp 200 "" (.ok helloJson))
      = (["✅ Success! Stdin implementation working",
          "Response length: 5"], none) :=
  ⟨rfl, (claim_C5 "" helloJson "hello" rfl).1,
   (claim_C5 "" helloJson "hello" rfl).2⟩

/-- Claim C6: for every response with a status code other than 200, each
script prints the status code and the raw response body after a failure
marker, and the process still exits 0. -/
theorem claim_C6 (status : Nat) (text : String) (jr : Except String Json)
    (h : status ≠ 200) :
    TestLargeStdin.tryBody (.resp status text jr)
      = (["❌ Error: " ++ toString status, text], none)
    ∧ TestStdin.tryBody (.resp status text jr)
      = (["❌ Error: " ++ toString status, text], none)
    ∧ (TestLargeStdin.test_stdin_implementation (.resp status text jr)).2 = 0
    ∧ (TestStdin.test_stdin_implementation (.resp status text jr)).2 = 0 := by
  refine ⟨?_, ?_, rfl, rfl⟩ <;>
    simp [TestLargeStdin.tryBody, TestStdin.tryBody, h]

theorem claim_C6_witness :
    (500 : Nat) ≠ 200
    ∧ TestLargeStdin.tryBody (.resp 500 "server error" (.error "no json"))
      = (["❌ Error: 500", "server error"], none)
    ∧ (TestStdin.test_stdin_implementation
        (.resp 500 "server error" (.error "no json"))).2 = 0 :=
  ⟨by decide,
   (claim_C6 500 "server error" (.error "no json") (by decide)).1,
   (claim_C6 500 "server error" (.error "no json") (by decide)).2.2.2⟩

/-- Claim C7: decoding the JSON request body sent to the endpoint yields a
value equal field-for-field to the payload constructed before the POST:
the payloads of both scripts survive the serialization round trip. -/
theorem claim_C7 :
    decode (encode TestLargeStdin.payload) = some TestLargeStdin.payload
    ∧ decode (encode TestStdin.payload) = some TestStdin.payload :=
  ⟨decode_encode wf_payload1, decode_encode wf_payload2⟩

/-- Claim C8: for every 200 response whose body is not valid JSON or lacks
the keys `choices[0].message.content`, each script prints its success
marker first (it is printed before parsing) and then the failure marker,
so both markers appear in that run's output. -/
theorem claim_C8 (text : String) (jr : Except String Json) (m : String)
    (h : jr = .error m ∨ ∃ j, jr = .ok j ∧ extractContent j = .error m) :
    (TestLargeStdin.test_stdin_implementation (.resp 200 text jr)).1
      = TestLargeStdin.preamble
        ++ ["✅ Success! Large prompt handled correctly", "❌ Error: " ++ m]
    ∧ (TestStdin.test_stdin_implementation (.resp 200 text jr)).1
      = TestStdin.preamble
        ++ ["✅ Success! Stdin implementation working", "❌ Error: " ++ m] := by
  rcases h with rfl | ⟨j, rfl, hj⟩
  · constructor <;>
      simp [TestLargeStdin.test_stdin_implementation,
        TestStdin.test_stdin_implementation,
        TestLargeStdin.tryBody, TestStdin.tryBody]
  · constructor <;>
      simp [TestLargeStdin.test_stdin_implementation,
        TestStdin.test_stdin_implementation,
        TestLargeStdin.tryBody, TestStdin.tryBody, hj]

theorem claim_C8_witness :
    ((Except.ok (.obj .nil) : Except String Json) = .error "KeyError: choices"
      ∨ ∃ j, (Except.ok (.obj .nil) : Except String Json) = .ok j
          ∧ extractContent j = .error "KeyError: choices")
    ∧ (TestLargeStdin.test_stdin_implementation
        (.resp 200 "" (.ok (.obj .nil)))).1
      = TestLargeStdin.preamble
        ++ ["✅ Success! Large prompt handled correctly",
            "❌ Error: KeyError: choices"]
    ∧ (TestStdin.test_stdin_implementation
        (.resp 200 "" (.ok (.obj .nil)))).1
      = TestStdin.preamble
        ++ ["✅ Success! Stdin implementation working",
            "❌ Error: KeyError: choices"] :=
  ⟨Or.inr ⟨.obj .nil, rfl, rfl⟩,
   (claim_C8 "" (.ok (.obj .nil)) "KeyError: choices"
      (Or.inr ⟨.obj .nil, rfl, rfl⟩)).1,
   (claim_C8 "" (.ok (.obj .nil)) "KeyError: choices"
      (Or.inr ⟨.obj .nil, rfl, rfl⟩)).2⟩

/-- Claim C9: script 1's request payload has exactly the two keys `model`
and `messages`, in that order, and no `tools` key. -/
theorem claim_C9 :
    TestLargeStdin.payloadFields.keys = ["model", "messages"]
    ∧ jLookup TestLargeStdin.payload "tools" = none :=
  ⟨rfl, rfl⟩

/-- Claim C10: payload construction is deterministic: it reads no
command-line arguments and no environment variables, so any two runs of
the same script construct identical payloads. -/
theorem claim_C10 (e1 e2 : RunEnv) :
    TestLargeStdin.buildPayload e1 = TestLargeStdin.buildPayload e2
    ∧ TestStdin.buildPayload e1 = TestStdin.buildPayload e2 :=
  ⟨rfl, rfl⟩
